import Mathlib

/-!
Shallow embedding of the appliance-scheduling optimizer from `src/api.py`
(Flask API for home energy optimization).  The Time-of-Use pricing
functions, the PuLP integer-program construction inside
`optimize_schedule`, and the result-extraction code are translated into
executable Lean definitions.  The external CBC solver is modelled as a
parameter that returns either an optimal 0/1 assignment of the binary
variables or a non-optimal status, mirroring the `LpStatus` check in the
source.
-/

namespace EnergyOpt

/-- Pricing tier names returned by `get_tou_tier` in src/api.py. -/
inductive Tier
  | offPeak
  | peak
  | normal
  deriving DecidableEq

/-- Translation of `get_tou_price` (src/api.py lines 27-34): rupees per
kWh as a function of the hour.  Python `hour >= 22 or hour < 6` etc.,
over arbitrary integers exactly as in the source. -/
def get_tou_price (hour : ℤ) : ℚ :=
  if 22 ≤ hour ∨ hour < 6 then 4.5
  else if 18 ≤ hour ∧ hour < 22 then 8.5
  else 6

/-- Translation of `get_tou_tier` (src/api.py lines 36-42). -/
def get_tou_tier (hour : ℤ) : Tier :=
  if 22 ≤ hour ∨ hour < 6 then .offPeak
  else if 18 ≤ hour ∧ hour < 22 then .peak
  else .normal

/-- Appliance as read from the request body: fields `id` (used as
`str(app['id'])` throughout), `name`, `power`, `duration`,
`preferredHour`. -/
structure Appliance where
  id : String
  name : String
  power : ℚ
  duration : ℕ
  preferredHour : ℕ
  deriving DecidableEq

/-- A decision variable is identified by (appliance id, hour), matching
the dictionary `x[app_id][h]` of `LpVariable(f"app_{app_id}_h{h}",
cat='Binary')` in src/api.py lines 152-157. -/
abbrev VarId := String × ℕ

/-- One linear constraint of the PuLP problem: terms with coefficients,
an added constant on the left-hand side (the base load), a right-hand
side, and whether it is an equality (`==`) or an inequality (`<=`). -/
structure LinConstraint where
  cname : String
  terms : List (VarId × ℚ)
  base : ℚ
  rhs : ℚ
  isEq : Bool
  deriving DecidableEq

/-- The integer program assembled by `optimize_schedule` before
`prob.solve`. -/
structure IntegerProgram where
  pname : String
  varIds : List VarId
  objective : List (VarId × ℚ)
  constraints : List LinConstraint
  deriving DecidableEq

/-- An assignment of the binary variables (`cat='Binary'`): each
(appliance id, hour) is on or off. -/
abbrev Assignment := String → ℕ → Bool

/-- Value of a linear expression at an assignment. -/
def evalTerms (ts : List (VarId × ℚ)) (a : Assignment) : ℚ :=
  (ts.map fun t => if a t.1.1 t.1.2 then t.2 else 0).sum

/-- Satisfaction of one constraint at an assignment. -/
def LinConstraint.sat (c : LinConstraint) (a : Assignment) : Prop :=
  if c.isEq then evalTerms c.terms a + c.base = c.rhs
  else evalTerms c.terms a + c.base ≤ c.rhs

instance (c : LinConstraint) (a : Assignment) : Decidable (c.sat a) := by
  unfold LinConstraint.sat
  cases c.isEq
  · simp only [Bool.false_eq_true, if_false]
    infer_instance
  · simp only [if_true]
    infer_instance

/-- Python `hours = range(24)` (src/api.py line 146). -/
def hours : List ℕ := List.range 24

/-- Variables created by the nested loops at src/api.py lines 152-157:
one binary variable per appliance per hour. -/
def buildVarIds (appliances : List Appliance) : List VarId :=
  appliances.flatMap fun app => hours.map fun h => (app.id, h)

/-- Objective terms of src/api.py lines 160-164:
`x[id][h] * app['power'] * get_tou_price(h)` for each appliance and
hour. -/
def buildObjective (appliances : List Appliance) : List (VarId × ℚ) :=
  appliances.flatMap fun app =>
    hours.map fun h => ((app.id, h), app.power * get_tou_price (h : ℤ))

/-- Constraint 1 of src/api.py lines 167-169:
`lpSum([x[id][h] for h in hours]) == app['duration']`. -/
def durationConstraint (app : Appliance) : LinConstraint :=
  { cname := "Runtime_" ++ app.id
    terms := hours.map fun h => ((app.id, h), (1 : ℚ))
    base := 0
    rhs := (app.duration : ℚ)
    isEq := true }

/-- Constraint 2 of src/api.py lines 172-176:
`lpSum([x[id][h] * power]) + base_load[h] <= max_power`. -/
def capacityConstraint (appliances : List Appliance) (base_load : List ℚ)
    (max_power : ℚ) (h : ℕ) : LinConstraint :=
  { cname := "MaxPower_" ++ toString h
    terms := appliances.map fun app => ((app.id, h), app.power)
    base := base_load.getD h 0
    rhs := max_power
    isEq := false }

/-- The full program built at src/api.py lines 149-176, assuming all
indexing succeeds. -/
def buildProgram (appliances : List Appliance) (base_load : List ℚ)
    (max_power : ℚ) : IntegerProgram :=
  { pname := "Appliance_Scheduling"
    varIds := buildVarIds appliances
    objective := buildObjective appliances
    constraints := appliances.map durationConstraint ++
      hours.map (capacityConstraint appliances base_load max_power) }

/-- Building the capacity constraints indexes `base_load[h]` for every h
in 0..23; with fewer than 24 entries Python raises an uncaught
IndexError during formulation, before `prob.solve` runs.  That failure
path is modelled as `none`. -/
def buildLP (appliances : List Appliance) (base_load : List ℚ)
    (max_power : ℚ) : Option IntegerProgram :=
  if base_load.length < 24 then none
  else some (buildProgram appliances base_load max_power)

/-- Objective value of an assignment. -/
def objValue (p : IntegerProgram) (a : Assignment) : ℚ :=
  evalTerms p.objective a

/-- An assignment is feasible when it satisfies every constraint. -/
def Feasible (p : IntegerProgram) (a : Assignment) : Prop :=
  ∀ c ∈ p.constraints, c.sat a

instance (p : IntegerProgram) (a : Assignment) : Decidable (Feasible p a) := by
  unfold Feasible
  infer_instance

/-- The solver contract: `Optimal` means a feasible assignment of
minimum objective value. -/
def OptimalFor (p : IntegerProgram) (a : Assignment) : Prop :=
  Feasible p a ∧ ∀ b : Assignment, Feasible p b → objValue p a ≤ objValue p b

/-- Non-Optimal PuLP statuses (`LpStatus[prob.status]`). -/
inductive SolverStatus
  | notSolved
  | infeasible
  | unbounded
  | undefinedStatus
  deriving DecidableEq

/-- Outcome of `prob.solve(PULP_CBC_CMD(msg=0))`: either an optimal 0/1
assignment or a non-Optimal status. -/
inductive SolverResult
  | optimal (assign : Assignment)
  | notOptimal (status : SolverStatus)

/-- The external CBC solver, abstracted. -/
abbrev Solver := IntegerProgram → SolverResult

/-- Error outcomes of the `/api/optimize` endpoint: the 400 response
`'No appliances provided'` (src/api.py line 144), the uncaught
IndexError from a short base load, and the 400 response
`'Optimization failed: <status>'` (src/api.py line 182). -/
inductive ApiError
  | noAppliances
  | indexError
  | optimizationFailed (status : SolverStatus)
  deriving DecidableEq

/-- Hours at which an appliance is scheduled (src/api.py line 196):
`[h for h in hours if value(x[app_id][h]) == 1]`. -/
def scheduledHoursOf (a : Assignment) (appId : String) : List ℕ :=
  hours.filter fun h => a appId h

/-- Python `min(l)` with a fallback for the empty list, modelling
`min(scheduled_hours) if scheduled_hours else preferred_hour`
(src/api.py line 197). -/
def pyMin (l : List ℕ) (dflt : ℕ) : ℕ :=
  match l with
  | [] => dflt
  | x :: xs => xs.foldl Nat.min x

/-- Insertion step for `pySorted`. -/
def insertSorted (x : ℕ) : List ℕ → List ℕ
  | [] => [x]
  | y :: ys => if x ≤ y then x :: y :: ys else y :: insertSorted x ys

/-- Python `sorted(...)` on a list of naturals (src/api.py line 214). -/
def pySorted : List ℕ → List ℕ
  | [] => []
  | x :: xs => insertSorted x (pySorted xs)

/-- Baseline cost at src/api.py line 200:
`sum(power * get_tou_price((preferred_hour + h) % 24) for h in
range(duration))`. -/
def original_cost (app : Appliance) : ℚ :=
  ((List.range app.duration).map fun k =>
    app.power * get_tou_price (((app.preferredHour + k) % 24 : ℕ) : ℤ)).sum

/-- Optimized cost at src/api.py line 201:
`sum(power * get_tou_price(h) for h in scheduled_hours)`. -/
def optimized_cost (app : Appliance) (scheduled : List ℕ) : ℚ :=
  (scheduled.map fun (h : ℕ) => app.power * get_tou_price (h : ℤ)).sum

/-- The guarded percentage expression of src/api.py lines 218 and 235:
`(savings / original_cost * 100) if original_cost > 0 else 0`. -/
def savingsPercentOf (s oc : ℚ) : ℚ :=
  if 0 < oc then s / oc * 100 else 0

/-- Python `round` rounds half to even (banker's rounding). -/
def roundHalfEven (q : ℚ) : ℤ :=
  if q - Int.floor q = 1 / 2 then
    (if Int.floor q % 2 = 0 then Int.floor q else Int.floor q + 1)
  else round q

/-- Python `round(q, ndigits)`. -/
def roundTo (ndigits : ℕ) (q : ℚ) : ℚ :=
  ((roundHalfEven (q * 10 ^ ndigits) : ℤ) : ℚ) / 10 ^ ndigits

/-- One per-appliance entry of the JSON response (src/api.py lines
207-222). -/
structure ApplianceResult where
  id : String
  name : String
  power : ℚ
  duration : ℕ
  originalHour : ℕ
  optimizedHour : ℕ
  scheduledHours : List ℕ
  originalCost : ℚ
  optimizedCost : ℚ
  savings : ℚ
  savingsPercent : ℚ
  hasChange : Bool
  originalTier : Tier
  optimizedTier : Tier
  deriving DecidableEq

/-- Per-appliance extraction, one iteration of the loop at src/api.py
lines 189-222. -/
def mkResult (a : Assignment) (app : Appliance) : ApplianceResult :=
  let scheduled_hours := scheduledHoursOf a app.id
  let optimized_hour := pyMin scheduled_hours app.preferredHour
  let oc := original_cost app
  let opt := optimized_cost app scheduled_hours
  let savings := oc - opt
  { id := app.id
    name := app.name
    power := app.power
    duration := app.duration
    originalHour := app.preferredHour
    optimizedHour := optimized_hour
    scheduledHours := pySorted scheduled_hours
    originalCost := roundTo 2 oc
    optimizedCost := roundTo 2 opt
    savings := roundTo 2 savings
    savingsPercent := roundTo 1 (savingsPercentOf savings oc)
    hasChange := optimized_hour != app.preferredHour
    originalTier := get_tou_tier (app.preferredHour : ℤ)
    optimizedTier := get_tou_tier (optimized_hour : ℤ) }

/-- Accumulated `total_original_cost` of the extraction loop. -/
def total_original_cost (appliances : List Appliance) : ℚ :=
  (appliances.map original_cost).sum

/-- Accumulated `total_optimized_cost` of the extraction loop. -/
def total_optimized_cost (appliances : List Appliance) (a : Assignment) : ℚ :=
  (appliances.map fun app => optimized_cost app (scheduledHoursOf a app.id)).sum

/-- Summary object of the JSON response (src/api.py lines 230-236). -/
structure Summary where
  originalCost : ℚ
  optimizedCost : ℚ
  dailySavings : ℚ
  monthlySavings : ℚ
  savingsPercent : ℚ
  deriving DecidableEq

/-- Builds the summary (src/api.py lines 224, 230-236). -/
def mkSummary (appliances : List Appliance) (a : Assignment) : Summary :=
  let tOrig := total_original_cost appliances
  let tOpt := total_optimized_cost appliances a
  let tSav := tOrig - tOpt
  { originalCost := roundTo 2 tOrig
    optimizedCost := roundTo 2 tOpt
    dailySavings := roundTo 2 tSav
    monthlySavings := roundTo 2 (tSav * 30)
    savingsPercent := roundTo 1 (savingsPercentOf tSav tOrig) }

/-- The successful JSON response. -/
structure OptimizeResponse where
  results : List ApplianceResult
  summary : Summary
  deriving DecidableEq

/-- Result extraction on an Optimal solve (src/api.py lines 184-237). -/
def extractResults (appliances : List Appliance) (a : Assignment) : OptimizeResponse :=
  { results := appliances.map (mkResult a)
    summary := mkSummary appliances a }

/-- The `/api/optimize` handler `optimize_schedule` (src/api.py lines
119-237), with the CBC solver abstracted as a parameter: the only input
validation is `if not appliances` (line 143); then the program is built
(IndexError if the base load is short), solved once, any non-Optimal
status is returned as the 400 error of line 182, and on Optimal the
results are extracted. -/
def optimize_schedule (solver : Solver) (appliances : List Appliance)
    (base_load : List ℚ) (max_power : ℚ) : Except ApiError OptimizeResponse :=
  if appliances.isEmpty then .error .noAppliances
  else
    match buildLP appliances base_load max_power with
    | none => .error .indexError
    | some prob =>
      match solver prob with
      | .notOptimal st => .error (.optimizationFailed st)
      | .optimal assign => .ok (extractResults appliances assign)

/-- Scenario A appliance: power 2.0 kW, duration 2 h, preferred hour
19. -/
def appA : Appliance :=
  { id := "1", name := "AC", power := 2, duration := 2, preferredHour := 19 }

/-- All-zero base load of length 24. -/
def zeros24 : List ℚ := List.replicate 24 0

/-- The Scenario A integer program. -/
def probA : IntegerProgram := buildProgram [appA] zeros24 8

/-- Concrete optimal assignment for Scenario A: run at hours 22 and
23. -/
def offPeakAssign : Assignment := fun _ h => decide (h = 22 ∨ h = 23)

/-- A solver stub answering the Scenario A optimum. -/
def offPeakSolver : Solver := fun _ => SolverResult.optimal offPeakAssign

/-- A contract-violating solver stub: claims Optimal but turns every
variable off. -/
def silentSolver : Solver := fun _ => SolverResult.optimal fun _ _ => false

/-- A solver stub reporting infeasibility. -/
def infeasibleSolver : Solver := fun _ => SolverResult.notOptimal SolverStatus.infeasible

/-- A solver stub reporting status Not Solved. -/
def notSolvedSolver : Solver := fun _ => SolverResult.notOptimal SolverStatus.notSolved

/-- An appliance whose duration exceeds 24 hours. -/
def badDurationApp : Appliance :=
  { id := "1", name := "AC", power := 2, duration := 25, preferredHour := 19 }

/-- An appliance with zero duration, hence zero baseline cost. -/
def idleApp : Appliance :=
  { id := "2", name := "Idle", power := 1, duration := 0, preferredHour := 0 }

/-- Every tariff band is nonnegative. -/
lemma get_tou_price_nonneg (h : ℤ) : 0 ≤ get_tou_price h := by
  unfold get_tou_price
  split_ifs <;> norm_num

/-- The off-peak rate 4.50 is the cheapest band. -/
lemma offpeak_price_le (h : ℤ) : (4.5 : ℚ) ≤ get_tou_price h := by
  unfold get_tou_price
  split_ifs <;> norm_num

/-- Sum of a mapped range as a Finset sum. -/
lemma list_sum_map_range_eq (n : ℕ) (f : ℕ → ℚ) :
    ((List.range n).map f).sum = ∑ k in Finset.range n, f k := by
  induction n with
  | zero => simp
  | succ m ih =>
      rw [List.range_succ, List.map_append, List.sum_append, Finset.sum_range_succ, ih]
      simp

/-- Summing a function over a filtered list equals summing its guarded
version over the whole list. -/
lemma sum_map_filter (l : List ℕ) (p : ℕ → Bool) (f : ℕ → ℚ) :
    ((l.filter p).map f).sum = (l.map fun h => if p h then f h else 0).sum := by
  induction l with
  | nil => rfl
  | cons x xs ih =>
      by_cases hx : p x
      · simp [List.filter_cons, hx, ih]
      · simp [List.filter_cons, hx, ih]

/-- A sum of 0/1 indicators counts the filtered list. -/
lemma sum_ite_one_len (l : List ℕ) (p : ℕ → Bool) :
    (l.map fun h => if p h then (1 : ℚ) else 0).sum = ((l.filter p).length : ℚ) := by
  induction l with
  | nil => simp
  | cons x xs ih =>
      by_cases hx : p x
      · simp [List.filter_cons, hx, ih]
        ring
      · simp [List.filter_cons, hx, ih]

/-- evalTerms distributes over list append. -/
lemma evalTerms_append (ts us : List (VarId × ℚ)) (a : Assignment) :
    evalTerms (ts ++ us) a = evalTerms ts a + evalTerms us a := by
  unfold evalTerms
  rw [List.map_append, List.sum_append]

/-- evalTerms on per-hour terms of a single appliance. -/
lemma evalTerms_hour_terms (i : String) (f : ℕ → ℚ) (l : List ℕ) (a : Assignment) :
    evalTerms (l.map fun h => ((i, h), f h)) a =
      (l.map fun h => if a i h then f h else 0).sum := by
  unfold evalTerms
  rw [List.map_map]
  rfl

/-- evalTerms on per-appliance terms of a single hour. -/
lemma evalTerms_app_terms (h : ℕ) (appliances : List Appliance) (f : Appliance → ℚ)
    (a : Assignment) :
    evalTerms (appliances.map fun app => ((app.id, h), f app)) a =
      (appliances.map fun app => if a app.id h then f app else 0).sum := by
  unfold evalTerms
  rw [List.map_map]
  rfl

/-- Folding Nat.min never exceeds the initial accumulator. -/
lemma foldl_min_le_init (t : List ℕ) (x : ℕ) : t.foldl Nat.min x ≤ x := by
  induction t generalizing x with
  | nil => exact le_refl x
  | cons y ys ih =>
      calc ys.foldl Nat.min (Nat.min x y) ≤ Nat.min x y := ih _
      _ ≤ x := Nat.min_le_left _ _

/-- Folding Nat.min is a lower bound of all list members. -/
lemma foldl_min_le_mem (t : List ℕ) (x : ℕ) : ∀ y ∈ t, t.foldl Nat.min x ≤ y := by
  induction t generalizing x with
  | nil => intro y hy; cases hy
  | cons z zs ih =>
      intro y hy
      rcases List.mem_cons.mp hy with rfl | hy'
      · calc zs.foldl Nat.min (Nat.min x y) ≤ Nat.min x y := foldl_min_le_init _ _
        _ ≤ y := Nat.min_le_right _ _
      · exact ih _ y hy'

/-- Folding Nat.min lands on the accumulator or on a list member. -/
lemma foldl_min_mem_or (t : List ℕ) (x : ℕ) :
    t.foldl Nat.min x = x ∨ t.foldl Nat.min x ∈ t := by
  induction t generalizing x with
  | nil => exact Or.inl rfl
  | cons z zs ih =>
      rw [List.foldl_cons]
      rcases ih (Nat.min x z) with h | h
      · rw [h]
        rcases Nat.le_total x z with hxz | hzx
        · refine Or.inl ?_
          show min x z = x
          exact min_eq_left hxz
        · refine Or.inr ?_
          show min x z ∈ z :: zs
          rw [min_eq_right hzx]
          exact List.mem_cons_self z zs
      · exact Or.inr (List.mem_cons_of_mem z h)

/-- Python min of a non-empty list is a member. -/
lemma pyMin_mem (l : List ℕ) (d : ℕ) (h : l ≠ []) : pyMin l d ∈ l := by
  cases l with
  | nil => exact absurd rfl h
  | cons x xs =>
      have hred : pyMin (x :: xs) d = xs.foldl Nat.min x := rfl
      rw [hred]
      rcases foldl_min_mem_or xs x with h' | h'
      · rw [h']; exact List.mem_cons_self x xs
      · exact List.mem_cons_of_mem x h'

/-- Python min bounds every member from below. -/
lemma pyMin_le (l : List ℕ) (d : ℕ) : ∀ y ∈ l, pyMin l d ≤ y := by
  cases l with
  | nil => intro y hy; cases hy
  | cons x xs =>
      intro y hy
      have hred : pyMin (x :: xs) d = xs.foldl Nat.min x := rfl
      rw [hred]
      rcases List.mem_cons.mp hy with rfl | hy'
      · exact foldl_min_le_init xs y
      · exact foldl_min_le_mem xs x y hy'

/-- Membership is preserved by sorted insertion. -/
lemma mem_insertSorted (x y : ℕ) (l : List ℕ) :
    y ∈ insertSorted x l ↔ y = x ∨ y ∈ l := by
  induction l with
  | nil => simp [insertSorted]
  | cons z zs ih =>
      unfold insertSorted
      split
      · simp [List.mem_cons]
      · simp [List.mem_cons, ih]
        tauto

/-- Sorted insertion grows the length by one. -/
lemma length_insertSorted (x : ℕ) (l : List ℕ) :
    (insertSorted x l).length = l.length + 1 := by
  induction l with
  | nil => rfl
  | cons z zs ih =>
      unfold insertSorted
      split
      · rfl
      · simp [ih]

/-- Sorting preserves membership. -/
lemma mem_pySorted (y : ℕ) (l : List ℕ) : y ∈ pySorted l ↔ y ∈ l := by
  induction l with
  | nil => simp [pySorted]
  | cons z zs ih =>
      simp [pySorted, mem_insertSorted, ih, List.mem_cons]

/-- Sorting preserves length. -/
lemma length_pySorted (l : List ℕ) : (pySorted l).length = l.length := by
  induction l with
  | nil => rfl
  | cons z zs ih => simp [pySorted, length_insertSorted, ih]

/-- Sorting yields the empty list only on the empty list. -/
lemma pySorted_eq_nil_iff (l : List ℕ) : pySorted l = [] ↔ l = [] := by
  constructor
  · intro h
    have := length_pySorted l
    rw [h] at this
    exact List.length_eq_zero.mp this.symm
  · intro h
    rw [h]
    rfl

/-- Rounding zero gives zero. -/
lemma roundTo_zero (n : ℕ) : roundTo n 0 = 0 := by
  norm_num [roundTo, roundHalfEven]

/-- Indexing the all-zero base load always yields zero. -/
lemma getD_zeros24 (h : ℕ) : zeros24.getD h 0 = 0 := by
  rw [zeros24, List.getD_eq_getElem?_getD, List.getElem?_replicate]
  split <;> rfl

/-- Baseline cost is nonnegative for nonnegative power. -/
lemma original_cost_nonneg (app : Appliance) (hp : 0 ≤ app.power) :
    0 ≤ original_cost app := by
  unfold original_cost
  apply List.sum_nonneg
  intro x hx
  simp only [List.mem_map] at hx
  obtain ⟨k, _, rfl⟩ := hx
  exact mul_nonneg hp (get_tou_price_nonneg _)

/-- Aggregate baseline cost is nonnegative for nonnegative powers. -/
lemma total_original_cost_nonneg (appliances : List Appliance)
    (hps : ∀ b ∈ appliances, 0 ≤ b.power) :
    0 ≤ total_original_cost appliances := by
  unfold total_original_cost
  apply List.sum_nonneg
  intro x hx
  obtain ⟨app, hap, rfl⟩ := List.mem_map.mp hx
  exact original_cost_nonneg app (hps app hap)

/-- Projection lemma: the reported original cost field. -/
lemma mkResult_originalCost (a : Assignment) (app : Appliance) :
    (mkResult a app).originalCost = roundTo 2 (original_cost app) := rfl

/-- Projection lemma: the reported optimized cost field. -/
lemma mkResult_optimizedCost (a : Assignment) (app : Appliance) :
    (mkResult a app).optimizedCost =
      roundTo 2 (optimized_cost app (scheduledHoursOf a app.id)) := rfl

/-- Projection lemma: the reported savings field. -/
lemma mkResult_savings (a : Assignment) (app : Appliance) :
    (mkResult a app).savings =
      roundTo 2 (original_cost app - optimized_cost app (scheduledHoursOf a app.id)) := rfl

/-- Projection lemma: the reported savings percentage field. -/
lemma mkResult_savingsPercent (a : Assignment) (app : Appliance) :
    (mkResult a app).savingsPercent =
      roundTo 1 (savingsPercentOf
        (original_cost app - optimized_cost app (scheduledHoursOf a app.id))
        (original_cost app)) := rfl

/-- Projection lemma: the reported scheduled hours field. -/
lemma mkResult_scheduledHours (a : Assignment) (app : Appliance) :
    (mkResult a app).scheduledHours = pySorted (scheduledHoursOf a app.id) := rfl

/-- Projection lemma: the reported optimized hour field. -/
lemma mkResult_optimizedHour (a : Assignment) (app : Appliance) :
    (mkResult a app).optimizedHour =
      pyMin (scheduledHoursOf a app.id) app.preferredHour := rfl

/-- Projection lemma: the reported change flag. -/
lemma mkResult_hasChange (a : Assignment) (app : Appliance) :
    (mkResult a app).hasChange =
      (pyMin (scheduledHoursOf a app.id) app.preferredHour != app.preferredHour) := rfl

/-- Projection lemma: the reported duration field. -/
lemma mkResult_duration (a : Assignment) (app : Appliance) :
    (mkResult a app).duration = app.duration := rfl

/-- Projection lemma: the reported original hour field. -/
lemma mkResult_originalHour (a : Assignment) (app : Appliance) :
    (mkResult a app).originalHour = app.preferredHour := rfl

/-- Projection lemma: the summary savings percentage field. -/
lemma mkSummary_savingsPercent (appliances : List Appliance) (a : Assignment) :
    (mkSummary appliances a).savingsPercent =
      roundTo 1 (savingsPercentOf
        (total_original_cost appliances - total_optimized_cost appliances a)
        (total_original_cost appliances)) := rfl

/-- With a non-empty appliance list and a 24-entry base load, the
handler reaches the solve and dispatches on its outcome. -/
lemma optimize_schedule_on_solve (solver : Solver) (appliances : List Appliance)
    (base_load : List ℚ) (max_power : ℚ)
    (hne : appliances ≠ []) (hbl : 24 ≤ base_load.length) :
    optimize_schedule solver appliances base_load max_power =
      match solver (buildProgram appliances base_load max_power) with
      | .notOptimal st => .error (.optimizationFailed st)
      | .optimal assign => .ok (extractResults appliances assign) := by
  have he : appliances.isEmpty = false := List.isEmpty_eq_false.mpr hne
  have hb : buildLP appliances base_load max_power =
      some (buildProgram appliances base_load max_power) := by
    unfold buildLP
    rw [if_neg (by omega)]
  unfold optimize_schedule
  rw [he]
  simp only [Bool.false_eq_true, if_false, hb]

/-- With a non-empty appliance list and fewer than 24 base-load
entries, the handler fails with the IndexError raised while building
the capacity constraints, before any solve. -/
lemma optimize_schedule_indexError (solver : Solver) (appliances : List Appliance)
    (base_load : List ℚ) (max_power : ℚ)
    (hne : appliances ≠ []) (hbl : base_load.length < 24) :
    optimize_schedule solver appliances base_load max_power = .error .indexError := by
  have he : appliances.isEmpty = false := List.isEmpty_eq_false.mpr hne
  have hb : buildLP appliances base_load max_power = none := by
    unfold buildLP
    rw [if_pos hbl]
  unfold optimize_schedule
  rw [he]
  simp only [Bool.false_eq_true, if_false, hb]

/-- Satisfying a duration constraint means the 0/1 hour indicators of
that appliance sum to its duration. -/
lemma durationConstraint_sat_iff (app : Appliance) (a : Assignment) :
    (durationConstraint app).sat a ↔
      ((List.range 24).map fun h => if a app.id h then (1 : ℚ) else 0).sum =
        (app.duration : ℚ) := by
  unfold LinConstraint.sat durationConstraint
  simp only [if_true]
  rw [evalTerms_hour_terms]
  rw [hours]
  simp

/-- Satisfying a capacity constraint means the scheduled power plus the
base load stays at or below the ceiling. -/
lemma capacityConstraint_sat_iff (appliances : List Appliance) (base_load : List ℚ)
    (max_power : ℚ) (h : ℕ) (a : Assignment) :
    (capacityConstraint appliances base_load max_power h).sat a ↔
      (appliances.map fun app => if a app.id h then app.power else 0).sum +
        base_load.getD h 0 ≤ max_power := by
  unfold LinConstraint.sat capacityConstraint
  simp only [Bool.false_eq_true, if_false]
  rw [evalTerms_app_terms]

/-- Feasibility of the built program decomposes into the duration
equalities and the hourly capacity inequalities. -/
lemma feasible_buildProgram_iff (appliances : List Appliance) (base_load : List ℚ)
    (max_power : ℚ) (a : Assignment) :
    Feasible (buildProgram appliances base_load max_power) a ↔
      ((∀ app ∈ appliances,
          ((List.range 24).map fun h => if a app.id h then (1 : ℚ) else 0).sum =
            (app.duration : ℚ)) ∧
       (∀ h, h < 24 →
          (appliances.map fun app => if a app.id h then app.power else 0).sum +
            base_load.getD h 0 ≤ max_power)) := by
  unfold Feasible buildProgram
  rw [List.forall_mem_append]
  apply and_congr
  · rw [List.forall_mem_map]
    exact forall₂_congr fun app _ => durationConstraint_sat_iff app a
  · rw [List.forall_mem_map]
    constructor
    · intro hc h hh
      exact (capacityConstraint_sat_iff appliances base_load max_power h a).mp
        (hc h (by rw [hours]; exact List.mem_range.mpr hh))
    · intro hc h hh
      exact (capacityConstraint_sat_iff appliances base_load max_power h a).mpr
        (hc h (List.mem_range.mp (by rw [hours] at hh; exact hh)))

/-- Value of the built objective: the spec's double sum over appliances
and hours. -/
lemma buildObjective_eval (appliances : List Appliance) (a : Assignment) :
    evalTerms (buildObjective appliances) a =
      (appliances.map fun app =>
        ((List.range 24).map fun h =>
          if a app.id h then app.power * get_tou_price (h : ℤ) else 0).sum).sum := by
  induction appliances with
  | nil => rfl
  | cons app rest ih =>
      rw [buildObjective, List.flatMap_cons, evalTerms_append]
      rw [buildObjective] at ih
      rw [ih, evalTerms_hour_terms, List.map_cons, List.sum_cons, hours]

/-- The variable grid has one entry per appliance per hour. -/
lemma buildVarIds_length (appliances : List Appliance) :
    (buildVarIds appliances).length = appliances.length * 24 := by
  induction appliances with
  | nil => rfl
  | cons app rest ih =>
      rw [buildVarIds, List.flatMap_cons, List.length_append, List.length_map]
      rw [buildVarIds] at ih
      rw [ih, hours, List.length_range, List.length_cons]
      ring

/-- With pairwise distinct appliance ids the variable grid has no
duplicates. -/
lemma buildVarIds_nodup (appliances : List Appliance)
    (hid : (appliances.map Appliance.id).Nodup) : (buildVarIds appliances).Nodup := by
  induction appliances with
  | nil => exact List.nodup_nil
  | cons app rest ih =>
      rw [buildVarIds, List.flatMap_cons]
      rw [List.map_cons, List.nodup_cons] at hid
      refine List.Nodup.append ?_ (ih hid.2) ?_
      · refine List.Nodup.map ?_ (by rw [hours]; exact List.nodup_range 24)
        intro x y hxy
        exact congrArg Prod.snd hxy
      · intro v hv1 hv2
        obtain ⟨h1, _, rfl⟩ := List.mem_map.mp hv1
        obtain ⟨b, hb, hvb⟩ := List.mem_flatMap.mp hv2
        obtain ⟨h2, _, heq⟩ := List.mem_map.mp hvb
        have hfst : b.id = app.id := congrArg Prod.fst heq
        exact hid.1 (by rw [← hfst]; exact List.mem_map.mpr ⟨b, hb, rfl⟩)

/-- Objective of the Scenario A program as a 24-hour indicator sum. -/
lemma objValue_probA (b : Assignment) :
    objValue probA b =
      ((List.range 24).map fun h =>
        if b "1" h then 2 * get_tou_price (h : ℤ) else 0).sum := by
  rw [probA]
  show evalTerms (buildObjective [appA]) b = _
  rw [buildObjective_eval]
  simp [appA]

/-- The extracted optimized cost of Scenario A equals the objective
value. -/
lemma optimized_cost_probA (b : Assignment) :
    optimized_cost appA (scheduledHoursOf b "1") =
      ((List.range 24).map fun h =>
        if b "1" h then 2 * get_tou_price (h : ℤ) else 0).sum := by
  rw [optimized_cost, scheduledHoursOf, hours, sum_map_filter]
  simp [appA]

/-- Every feasible Scenario A assignment costs at least 18. -/
lemma scenarioA_lower (b : Assignment) (hb : Feasible probA b) :
    18 ≤ objValue probA b := by
  rw [probA] at hb
  obtain ⟨hdur, _⟩ := (feasible_buildProgram_iff [appA] zeros24 8 b).mp hb
  have hsum := hdur appA (List.mem_singleton.mpr rfl)
  have hApp : (appA.duration : ℚ) = 2 := by norm_num [appA]
  rw [hApp] at hsum
  have hpt : ∀ h ∈ List.range 24,
      9 * (if b appA.id h then (1 : ℚ) else 0) ≤
        (if b "1" h then 2 * get_tou_price (h : ℤ) else 0) := by
    intro h _
    have hid : appA.id = "1" := rfl
    rw [hid]
    by_cases hbh : b "1" h
    · rw [if_pos hbh, if_pos hbh]
      have := offpeak_price_le (h : ℤ)
      linarith
    · rw [if_neg hbh, if_neg hbh]
      norm_num
  have hle := List.sum_le_sum hpt
  rw [List.sum_map_mul_left, hsum] at hle
  rw [objValue_probA]
  linarith

/-- The assignment running at hours 22 and 23 is feasible for Scenario
A. -/
lemma feasible_offPeak : Feasible probA offPeakAssign := by
  rw [probA, feasible_buildProgram_iff]
  constructor
  · intro app hap
    rw [List.mem_singleton] at hap
    subst hap
    norm_num [appA, offPeakAssign, List.range_succ]
  · intro h _
    rw [getD_zeros24]
    have : ([appA].map fun app =>
        if offPeakAssign app.id h then app.power else 0).sum ≤ 2 := by
      simp only [List.map_cons, List.map_nil, List.sum_cons, List.sum_nil]
      split
      · norm_num [appA]
      · norm_num
    linarith

/-- The hours 22 and 23 assignment costs exactly 18. -/
lemma objValue_offPeak : objValue probA offPeakAssign = 18 := by
  rw [objValue_probA]
  norm_num [offPeakAssign, List.range_succ, get_tou_price]

/-- C1: for every valid Schedule Problem (distinct appliance ids,
24-entry base load) the built integer program has exactly
appliances times 24 binary variables, one duration equality per
appliance and one capacity inequality per hour (appliances + 24
constraints in total), its objective evaluates to the double sum of
x[i][h] times power times price(h), and its feasibility is exactly the
conjunction of the duration equalities and the hourly capacity
bounds. -/
theorem lp_formulation_matches_spec (appliances : List Appliance)
    (base_load : List ℚ) (max_power : ℚ)
    (hid : (appliances.map Appliance.id).Nodup) (hbl : base_load.length = 24) :
    buildLP appliances base_load max_power =
      some (buildProgram appliances base_load max_power) ∧
    (buildProgram appliances base_load max_power).varIds.length =
      appliances.length * 24 ∧
    (buildProgram appliances base_load max_power).varIds.Nodup ∧
    (buildProgram appliances base_load max_power).constraints.length =
      appliances.length + 24 ∧
    (∀ a : Assignment,
      objValue (buildProgram appliances base_load max_power) a =
        (appliances.map fun app =>
          ((List.range 24).map fun h =>
            if a app.id h then app.power * get_tou_price (h : ℤ) else 0).sum).sum) ∧
    (∀ a : Assignment,
      Feasible (buildProgram appliances base_load max_power) a ↔
        ((∀ app ∈ appliances,
            ((List.range 24).map fun h => if a app.id h then (1 : ℚ) else 0).sum =
              (app.duration : ℚ)) ∧
         (∀ h, h < 24 →
            (appliances.map fun app => if a app.id h then app.power else 0).sum +
              base_load.getD h 0 ≤ max_power))) := by
  refine ⟨?_, buildVarIds_length appliances, buildVarIds_nodup appliances hid, ?_, ?_, ?_⟩
  · unfold buildLP
    rw [if_neg (by omega)]
  · show (appliances.map durationConstraint ++
      hours.map (capacityConstraint appliances base_load max_power)).length = _
    rw [List.length_append, List.length_map, List.length_map, hours, List.length_range]
  · intro a
    exact buildObjective_eval appliances a
  · intro a
    exact feasible_buildProgram_iff appliances base_load max_power a

/-- Witness for C1 at the Scenario A problem. -/
theorem lp_formulation_matches_spec_witness :
    buildLP [appA] zeros24 8 = some (buildProgram [appA] zeros24 8) ∧
    (buildProgram [appA] zeros24 8).varIds.length = 24 := by
  have h := lp_formulation_matches_spec [appA] zeros24 8 (by simp [appA]) (by simp [zeros24])
  refine ⟨h.1, ?_⟩
  rw [h.2.1]
  norm_num

/-- C2 counterexample: the code performs no size check on the solver's
assignment.  A solver that claims Optimal but turns every variable off
yields a successful response whose only entry has zero scheduled hours
against duration 2, with optimized hour silently reset to the preferred
hour 19 and the change flag cleared, instead of any solver-contract
error. -/
theorem solver_contract_violation_silently_accepted :
    appA.duration = 2 ∧
    (optimize_schedule silentSolver [appA] zeros24 8).toOption.map
        (fun r => r.results.map fun e =>
          (e.scheduledHours.length, e.optimizedHour, e.hasChange)) =
      some [(0, 19, false)] :=
  ⟨rfl, rfl⟩

/-- C2 amended: when the solver honours its contract (its Optimal
assignment satisfies every duration constraint), each entry of the
successful result has as many scheduled hours as its duration; the code
itself performs no such consistency check and raises no
solver-contract error. -/
theorem duration_conservation_when_solver_honest (solver : Solver)
    (appliances : List Appliance) (base_load : List ℚ) (max_power : ℚ)
    (assign : Assignment)
    (hne : appliances ≠ []) (hbl : base_load.length = 24)
    (hsol : solver (buildProgram appliances base_load max_power) = .optimal assign)
    (hsat : ∀ app ∈ appliances, (durationConstraint app).sat assign) :
    optimize_schedule solver appliances base_load max_power =
      .ok (extractResults appliances assign) ∧
    ∀ e ∈ (extractResults appliances assign).results,
      e.scheduledHours.length = e.duration := by
  constructor
  · rw [optimize_schedule_on_solve solver appliances base_load max_power hne (by omega), hsol]
  · intro e he
    simp only [extractResults] at he
    obtain ⟨app, hap, rfl⟩ := List.mem_map.mp he
    rw [mkResult_scheduledHours, mkResult_duration, length_pySorted]
    have h1 := (durationConstraint_sat_iff app assign).mp (hsat app hap)
    rw [sum_ite_one_len] at h1
    rw [scheduledHoursOf, hours]
    exact Nat.cast_inj.mp h1

/-- Witness for C2 with an honest solver on Scenario A. -/
theorem duration_conservation_witness :
    optimize_schedule offPeakSolver [appA] zeros24 8 =
      .ok (extractResults [appA] offPeakAssign) ∧
    ∀ e ∈ (extractResults [appA] offPeakAssign).results,
      e.scheduledHours.length = e.duration :=
  duration_conservation_when_solver_honest offPeakSolver [appA] zeros24 8 offPeakAssign
    (by simp) (by simp [zeros24]) rfl
    (by
      intro app hap
      rw [List.mem_singleton] at hap
      subst hap
      rw [durationConstraint_sat_iff]
      norm_num [appA, offPeakAssign, List.range_succ])

/-- C3 counterexample: an appliance with duration 25 (greater than 24)
is not rejected before the solve; the handler invokes the solver and
returns whatever status the solver reports, so the outcome depends on
the solver and is never the pre-solve invalid-input rejection. -/
theorem validation_gap_counterexample :
    24 < badDurationApp.duration ∧
    optimize_schedule infeasibleSolver [badDurationApp] zeros24 8 =
      .error (.optimizationFailed .infeasible) ∧
    optimize_schedule notSolvedSolver [badDurationApp] zeros24 8 =
      .error (.optimizationFailed .notSolved) ∧
    ApiError.optimizationFailed .infeasible ≠ ApiError.noAppliances :=
  ⟨by norm_num [badDurationApp], rfl, rfl, by decide⟩

/-- C3 amended: the only input condition rejected before invoking the
solver is an empty appliance list; the handler returns its
invalid-input error exactly when the appliance list is empty,
regardless of durations or base-load length. -/
theorem pre_solve_rejection_iff_empty (solver : Solver) (appliances : List Appliance)
    (base_load : List ℚ) (max_power : ℚ) :
    optimize_schedule solver appliances base_load max_power = .error .noAppliances ↔
      appliances = [] := by
  constructor
  · intro hres
    by_contra hne
    rcases lt_or_ge base_load.length 24 with hl | hl
    · rw [optimize_schedule_indexError solver appliances base_load max_power hne hl] at hres
      simp at hres
    · rw [optimize_schedule_on_solve solver appliances base_load max_power hne hl] at hres
      rcases hs : solver (buildProgram appliances base_load max_power) with assign | st
      · rw [hs] at hres
        simp at hres
      · rw [hs] at hres
        simp at hres
  · intro h
    subst h
    rfl

/-- C4: the pricing function realises the three tariff bands on hours
0-23: rate 4.50 and tier OffPeak on [22,24) and [0,6), rate 8.50 and
tier Peak on [18,22), rate 6.00 and tier Normal on [6,18). -/
theorem tou_price_bands (h : ℤ) (h0 : 0 ≤ h) (h24 : h < 24) :
    ((22 ≤ h ∨ h < 6) → get_tou_price h = 4.5 ∧ get_tou_tier h = Tier.offPeak) ∧
    ((18 ≤ h ∧ h < 22) → get_tou_price h = 8.5 ∧ get_tou_tier h = Tier.peak) ∧
    ((6 ≤ h ∧ h < 18) → get_tou_price h = 6 ∧ get_tou_tier h = Tier.normal) := by
  unfold get_tou_price get_tou_tier
  refine ⟨fun hc => ?_, fun hc => ?_, fun hc => ?_⟩ <;>
    split_ifs <;> first | exact ⟨rfl, rfl⟩ | omega

/-- Witness for C4 at hour 23. -/
theorem tou_price_bands_witness :
    get_tou_price 23 = 4.5 ∧ get_tou_tier 23 = Tier.offPeak :=
  (tou_price_bands 23 (by norm_num) (by norm_num)).1 (by norm_num)

/-- C5: the baseline cost is the cost of duration consecutive hours
from the preferred hour with indices wrapping modulo 24, independent of
any feasibility consideration (it is a function of the appliance
alone). -/
theorem original_cost_wraps_mod24 (app : Appliance) :
    original_cost app =
      ∑ k in Finset.range app.duration,
        app.power * get_tou_price (((app.preferredHour + k) % 24 : ℕ) : ℤ) := by
  rw [original_cost, list_sum_map_range_eq]

/-- C6: any non-Optimal solver status makes the handler return the
optimization-failed error carrying that status, with no response body,
no retry and no repair. -/
theorem non_optimal_is_hard_failure (solver : Solver) (appliances : List Appliance)
    (base_load : List ℚ) (max_power : ℚ) (st : SolverStatus)
    (hne : appliances ≠ []) (hbl : base_load.length = 24)
    (hsol : solver (buildProgram appliances base_load max_power) = .notOptimal st) :
    optimize_schedule solver appliances base_load max_power =
      .error (.optimizationFailed st) := by
  rw [optimize_schedule_on_solve solver appliances base_load max_power hne (by omega), hsol]

/-- Witness for C6 with an infeasible report on Scenario A. -/
theorem non_optimal_is_hard_failure_witness :
    optimize_schedule infeasibleSolver [appA] zeros24 8 =
      .error (.optimizationFailed .infeasible) :=
  non_optimal_is_hard_failure infeasibleSolver [appA] zeros24 8 SolverStatus.infeasible
    (by simp) (by simp [zeros24]) rfl

/-- C7: in every successful result, an entry with non-empty scheduled
hours has its optimized hour equal to the minimum of those hours (it is
a member and a lower bound), and the change flag holds exactly when the
optimized hour differs from the original preferred hour. -/
theorem optimized_hour_is_min_and_flags_change (solver : Solver)
    (appliances : List Appliance) (base_load : List ℚ) (max_power : ℚ)
    (resp : OptimizeResponse)
    (hok : optimize_schedule solver appliances base_load max_power = .ok resp) :
    ∀ e ∈ resp.results,
      (e.scheduledHours ≠ [] →
        e.optimizedHour ∈ e.scheduledHours ∧
          ∀ y ∈ e.scheduledHours, e.optimizedHour ≤ y) ∧
      (e.hasChange = true ↔ e.optimizedHour ≠ e.originalHour) := by
  rcases eq_or_ne appliances [] with rfl | hne
  · rw [show optimize_schedule solver [] base_load max_power =
        Except.error ApiError.noAppliances from rfl] at hok
    simp at hok
  · rcases lt_or_ge base_load.length 24 with hl | hl
    · rw [optimize_schedule_indexError solver appliances base_load max_power hne hl] at hok
      simp at hok
    · rw [optimize_schedule_on_solve solver appliances base_load max_power hne hl] at hok
      rcases hs : solver (buildProgram appliances base_load max_power) with assign | st2
      · rw [hs] at hok
        injection hok with h2
        subst h2
        intro e he'
        simp only [extractResults] at he'
        obtain ⟨app, _, rfl⟩ := List.mem_map.mp he'
        constructor
        · intro hnil
          rw [mkResult_scheduledHours] at hnil ⊢
          rw [mkResult_optimizedHour]
          have hsched : scheduledHoursOf assign app.id ≠ [] := by
            intro hcon
            rw [hcon] at hnil
            exact hnil rfl
          refine ⟨?_, ?_⟩
          · rw [mem_pySorted]
            exact pyMin_mem _ _ hsched
          · intro y hy
            rw [mem_pySorted] at hy
            exact pyMin_le _ _ y hy
        · rw [mkResult_hasChange, mkResult_optimizedHour, mkResult_originalHour]
          exact bne_iff_ne
      · rw [hs] at hok
        simp at hok

/-- Witness for C7 at the single entry of the Scenario A optimal
run. -/
theorem optimized_hour_is_min_witness :
    ((mkResult offPeakAssign appA).scheduledHours ≠ [] →
      (mkResult offPeakAssign appA).optimizedHour ∈
          (mkResult offPeakAssign appA).scheduledHours ∧
        ∀ y ∈ (mkResult offPeakAssign appA).scheduledHours,
          (mkResult offPeakAssign appA).optimizedHour ≤ y) ∧
    ((mkResult offPeakAssign appA).hasChange = true ↔
      (mkResult offPeakAssign appA).optimizedHour ≠
        (mkResult offPeakAssign appA).originalHour) :=
  optimized_hour_is_min_and_flags_change offPeakSolver [appA] zeros24 8
    (extractResults [appA] offPeakAssign) rfl (mkResult offPeakAssign appA)
    (List.mem_map.mpr ⟨appA, List.mem_singleton.mpr rfl, rfl⟩)

/-- C8: the savings percentage is zero-guarded, per appliance and in
the summary: a zero original cost yields exactly 0 rather than a
division by zero, and a nonzero (hence positive, for nonnegative
powers) original cost yields savings over original cost times 100. -/
theorem savings_percent_zero_guard (appliances : List Appliance) (assign : Assignment)
    (app : Appliance) (hp : 0 ≤ app.power) (hps : ∀ b ∈ appliances, 0 ≤ b.power) :
    (original_cost app = 0 → (mkResult assign app).savingsPercent = 0) ∧
    (original_cost app ≠ 0 →
      savingsPercentOf
          (original_cost app - optimized_cost app (scheduledHoursOf assign app.id))
          (original_cost app) =
        (original_cost app - optimized_cost app (scheduledHoursOf assign app.id)) /
          original_cost app * 100) ∧
    (total_original_cost appliances = 0 →
      (mkSummary appliances assign).savingsPercent = 0) ∧
    (total_original_cost appliances ≠ 0 →
      savingsPercentOf
          (total_original_cost appliances - total_optimized_cost appliances assign)
          (total_original_cost appliances) =
        (total_original_cost appliances - total_optimized_cost appliances assign) /
          total_original_cost appliances * 100) := by
  refine ⟨?_, ?_, ?_, ?_⟩
  · intro h0
    rw [mkResult_savingsPercent, h0]
    norm_num [savingsPercentOf, roundTo_zero]
  · intro hne0
    have hpos : 0 < original_cost app :=
      lt_of_le_of_ne (original_cost_nonneg app hp) (Ne.symm hne0)
    rw [savingsPercentOf, if_pos hpos]
  · intro h0
    rw [mkSummary_savingsPercent, h0]
    norm_num [savingsPercentOf, roundTo_zero]
  · intro hne0
    have hpos : 0 < total_original_cost appliances :=
      lt_of_le_of_ne (total_original_cost_nonneg appliances hps) (Ne.symm hne0)
    rw [savingsPercentOf, if_pos hpos]

/-- Witness for C8 on a zero-duration appliance with zero baseline
cost. -/
theorem savings_percent_zero_guard_witness :
    (mkResult (fun _ _ => false) idleApp).savingsPercent = 0 :=
  (savings_percent_zero_guard [idleApp] (fun _ _ => false) idleApp
      (by norm_num [idleApp])
      (by
        intro b hb
        rw [List.mem_singleton] at hb
        subst hb
        norm_num [idleApp])).1 rfl

/-- C9: on Scenario A (one appliance of power 2, duration 2, preferred
hour 19, zero base load, ceiling 8) every optimal solve reports
original cost 34 (hours 19 and 20 at peak rate), optimized cost 18
(two off-peak hours at 4.50) and savings 16. -/
theorem scenario_a_costs (solver : Solver) (assign : Assignment)
    (hsol : solver probA = .optimal assign) (hopt : OptimalFor probA assign) :
    optimize_schedule solver [appA] zeros24 8 = .ok (extractResults [appA] assign) ∧
    (mkResult assign appA).originalCost = 34 ∧
    (mkResult assign appA).optimizedCost = 18 ∧
    (mkResult assign appA).savings = 16 := by
  have hobj : objValue probA assign = 18 := by
    have hub := hopt.2 offPeakAssign feasible_offPeak
    rw [objValue_offPeak] at hub
    have hlb := scenarioA_lower assign hopt.1
    linarith
  have hoc : original_cost appA = 34 := by
    norm_num [original_cost, appA, List.range_succ, get_tou_price]
  have hopt18 : optimized_cost appA (scheduledHoursOf assign appA.id) = 18 := by
    have hid : appA.id = "1" := rfl
    rw [hid, optimized_cost_probA, ← objValue_probA, hobj]
  refine ⟨?_, ?_, ?_, ?_⟩
  · rw [optimize_schedule_on_solve solver [appA] zeros24 8 (by simp) (by simp [zeros24])]
    rw [show buildProgram [appA] zeros24 8 = probA from rfl, hsol]
  · rw [mkResult_originalCost, hoc]
    norm_num [roundTo, roundHalfEven]
  · rw [mkResult_optimizedCost, hopt18]
    norm_num [roundTo, roundHalfEven]
  · rw [mkResult_savings, hoc, hopt18]
    norm_num [roundTo, roundHalfEven]

/-- Witness for C9: the hours 22-23 assignment is optimal for Scenario
A and the claimed figures hold. -/
theorem scenario_a_costs_witness :
    optimize_schedule offPeakSolver [appA] zeros24 8 =
      .ok (extractResults [appA] offPeakAssign) ∧
    (mkResult offPeakAssign appA).originalCost = 34 ∧
    (mkResult offPeakAssign appA).optimizedCost = 18 ∧
    (mkResult offPeakAssign appA).savings = 16 :=
  scenario_a_costs offPeakSolver offPeakAssign rfl
    ⟨feasible_offPeak, fun b hb => by
      rw [objValue_offPeak]
      exact scenarioA_lower b hb⟩

/-- C10: both pricing functions are total over all integer hours,
mapping every out-of-range hour to the off-peak rate 4.50 and tier, and
on every integer the returned tier agrees with the returned rate. -/
theorem tou_pricing_total_and_consistent :
    (∀ h : ℤ, h < 0 ∨ 24 ≤ h →
      get_tou_price h = 4.5 ∧ get_tou_tier h = Tier.offPeak) ∧
    (∀ h : ℤ,
      (get_tou_tier h = Tier.offPeak ↔ get_tou_price h = 4.5) ∧
      (get_tou_tier h = Tier.peak ↔ get_tou_price h = 8.5) ∧
      (get_tou_tier h = Tier.normal ↔ get_tou_price h = 6)) := by
  constructor
  · intro h hr
    unfold get_tou_price get_tou_tier
    split_ifs <;> first | exact ⟨rfl, rfl⟩ | omega
  · intro h
    unfold get_tou_price get_tou_tier
    split_ifs <;> norm_num

/-- Witness for C10 at the out-of-range hours -1 and 24. -/
theorem tou_pricing_total_witness :
    get_tou_price (-1) = 4.5 ∧ get_tou_tier 24 = Tier.offPeak :=
  ⟨(tou_pricing_total_and_consistent.1 (-1) (by norm_num)).1,
   (tou_pricing_total_and_consistent.1 24 (by norm_num)).2⟩

end EnergyOpt
